import Mathlib

/-!
Verification of the slide-composition layer of `generate_pdf.py`
(repository Leihyn/Sentiment).

The script draws a fixed ten-slide PDF deck through a thin composer class
`SlidePDF` built on the `fpdf` page-drawing library.  We embed the composer
and the whole module-level slide script as a state machine over an explicit
canvas state (`PDF`): the current cursor, the current style (font, text,
fill and draw colors), the auto-page-break flag, and the trace of drawn
primitives, page by page.  Text metrics of the underlying font machinery
(`get_string_width`, the line count of `multi_cell`) are not part of the
repository; they enter as an abstract `Metrics` record, so every theorem
quantifies over them.
-/

set_option maxRecDepth 100000
set_option maxHeartbeats 3200000

namespace Sentiment

/-- Python `str.split(sep)` machinery, at the level of character lists:
find the first occurrence of `sep` in `s`, returning the part before it and
the part after it (`none` when `sep` does not occur).  The occurrence test
is `(…).take sep.length = sep`, i.e. `sep` matched at the current offset. -/
def splitFirst (sep : List Char) : List Char → Option (List Char × List Char)
  | [] => if ([] : List Char).take sep.length = sep then some ([], []) else none
  | a :: s =>
    if (a :: s).take sep.length = sep then some ([], (a :: s).drop sep.length)
    else
      match splitFirst sep s with
      | none => none
      | some (p, q) => some (a :: p, q)

theorem splitFirst_eq (sep : List Char) :
    ∀ (s p q : List Char), splitFirst sep s = some (p, q) → s = p ++ sep ++ q := by
  intro s
  induction s with
  | nil =>
    intro p q h
    simp only [splitFirst] at h
    split at h
    · rename_i hc
      simp only [List.take_nil] at hc
      cases h
      simp [← hc]
    · exact absurd h (by simp)
  | cons a s ih =>
    intro p q h
    simp only [splitFirst] at h
    split at h
    · rename_i hc
      cases h
      have := List.take_append_drop sep.length (a :: s)
      rw [hc] at this
      simpa using this.symm
    · cases hm : splitFirst sep s with
      | none => rw [hm] at h; simp at h
      | some pq =>
        obtain ⟨p1, q1⟩ := pq
        rw [hm] at h
        simp at h
        obtain ⟨hp, hq⟩ := h
        subst hp
        subst hq
        have hrec := ih p1 q1 hm
        simp [hrec]

/-- `occAt sep s i` means `sep` occurs in `s` at offset `i`. -/
def occAt (sep s : List Char) (i : Nat) : Prop :=
  (s.drop i).take sep.length = sep

instance (sep s : List Char) (i : Nat) : Decidable (occAt sep s i) := by
  unfold occAt; infer_instance

/-- Number of offsets at which `sep` occurs in `s`. -/
def occCount (sep s : List Char) : Nat :=
  ((List.range (s.length + 1)).filter (fun i => decide (occAt sep s i))).length

theorem splitFirst_isSome_of_occAt (sep : List Char) :
    ∀ (s : List Char) (i : Nat), occAt sep s i → (splitFirst sep s).isSome := by
  intro s
  induction s with
  | nil =>
    intro i h
    simp only [occAt, List.drop_nil, List.take_nil] at h
    simp [splitFirst, ← h]
  | cons a s ih =>
    intro i h
    cases i with
    | zero =>
      simp only [occAt, List.drop_zero] at h
      simp [splitFirst, h]
    | succ j =>
      simp only [occAt, List.drop_succ_cons] at h
      have hs := ih j h
      simp only [splitFirst]
      split
      · simp
      · cases hm : splitFirst sep s with
        | none => rw [hm] at hs; simp at hs
        | some pq => cases pq; simp

theorem occAt_of_splitFirst (sep s p q : List Char)
    (h : splitFirst sep s = some (p, q)) : occAt sep s p.length := by
  have hs := splitFirst_eq sep s p q h
  unfold occAt
  subst hs
  rw [List.append_assoc, List.drop_left, List.take_left]

theorem occAt_length_le (sep s : List Char) (i : Nat) (hsep : sep ≠ [])
    (h : occAt sep s i) : i ≤ s.length := by
  by_contra hlt
  push_neg at hlt
  have hd : s.drop i = [] := List.drop_eq_nil_of_le (le_of_lt hlt)
  unfold occAt at h
  rw [hd, List.take_nil] at h
  exact hsep h.symm

theorem occCount_pos (sep s : List Char) (i : Nat) (hsep : sep ≠ [])
    (h : occAt sep s i) : 0 < occCount sep s := by
  have hi : i ∈ (List.range (s.length + 1)).filter (fun i => decide (occAt sep s i)) := by
    refine List.mem_filter.mpr ⟨List.mem_range.mpr ?_, by simpa using h⟩
    exact Nat.lt_succ_of_le (occAt_length_le sep s i hsep h)
  exact List.length_pos.mpr (List.ne_nil_of_mem hi)

theorem two_le_length_of_mem {α : Type} {l : List α} {a b : α}
    (hab : a ≠ b) (ha : a ∈ l) (hb : b ∈ l) : 2 ≤ l.length := by
  cases l with
  | nil => simp at ha
  | cons x t =>
    cases t with
    | nil =>
      simp only [List.mem_singleton] at ha hb
      exact absurd (ha.trans hb.symm) hab
    | cons y u => simp [Nat.succ_le_succ, Nat.le_add_left]

theorem occCount_two (sep s : List Char) (i j : Nat) (hij : i ≠ j)
    (hsep : sep ≠ []) (hi : occAt sep s i) (hj : occAt sep s j) :
    2 ≤ occCount sep s := by
  have mem : ∀ k, occAt sep s k →
      k ∈ (List.range (s.length + 1)).filter (fun i => decide (occAt sep s i)) := by
    intro k hk
    refine List.mem_filter.mpr ⟨List.mem_range.mpr ?_, by simpa using hk⟩
    exact Nat.lt_succ_of_le (occAt_length_le sep s k hsep hk)
  exact two_le_length_of_mem hij (mem i hi) (mem j hj)

/-- Python `str.split(sep)` for a non-empty separator: the list of parts
between consecutive non-overlapping occurrences of `sep`, scanned left to
right.  For `sep = []` (where Python raises `ValueError`) we return `[s]`;
the fallible wrapper `pysplitE` makes that error explicit. -/
def pysplit (sep s : List Char) : List (List Char) :=
  if hsep : sep = [] then [s]
  else
    match hm : splitFirst sep s with
    | none => [s]
    | some (p, q) => p :: pysplit sep q
termination_by s.length
decreasing_by
  have hs := splitFirst_eq sep s p q hm
  have hlen : s.length = p.length + sep.length + q.length := by
    subst hs; simp [List.length_append]; omega
  have : 0 < sep.length := List.length_pos.mpr hsep
  omega

/-- Python `str.split(sep)` with its `ValueError` on an empty separator. -/
def pysplitE (sep s : List Char) : Except String (List (List Char)) :=
  if sep = [] then .error "empty separator" else .ok (pysplit sep s)

theorem pysplit_eq_of_none (sep s : List Char) (hsep : sep ≠ [])
    (h : splitFirst sep s = none) : pysplit sep s = [s] := by
  rw [pysplit]
  split
  · rfl
  · split
    · rfl
    · rename_i p1 q1 heq
      rw [h] at heq
      simp at heq

theorem pysplit_eq_of_some (sep s p q : List Char) (hsep : sep ≠ [])
    (h : splitFirst sep s = some (p, q)) :
    pysplit sep s = p :: pysplit sep q := by
  rw [pysplit]
  split
  · exact absurd (by assumption) hsep
  · split
    · rename_i heq
      rw [h] at heq
      simp at heq
    · rename_i p1 q1 heq
      rw [h] at heq
      simp at heq
      obtain ⟨hp, hq⟩ := heq
      subst hp
      subst hq
      rfl

theorem pysplit_of_occCount_zero (sep s : List Char) (hsep : sep ≠ [])
    (h : occCount sep s = 0) : pysplit sep s = [s] := by
  cases hm : splitFirst sep s with
  | none => exact pysplit_eq_of_none sep s hsep hm
  | some pq =>
    obtain ⟨p, q⟩ := pq
    have := occAt_of_splitFirst sep s p q hm
    have := occCount_pos sep s p.length hsep this
    omega

theorem pysplit_of_occCount_one (sep s : List Char) (hsep : sep ≠ [])
    (h : occCount sep s = 1) :
    ∃ p q, pysplit sep s = [p, q] ∧ s = p ++ sep ++ q := by
  have hslen : 0 < sep.length := List.length_pos.mpr hsep
  cases hm : splitFirst sep s with
  | none =>
    exfalso
    have hne : ((List.range (s.length + 1)).filter
        (fun i => decide (occAt sep s i))) ≠ [] := by
      intro hnil
      unfold occCount at h
      rw [hnil] at h
      simp at h
    obtain ⟨i, hi⟩ := List.exists_mem_of_ne_nil _ hne
    have hocc : occAt sep s i := by
      have := (List.mem_filter.mp hi).2
      simpa using this
    have := splitFirst_isSome_of_occAt sep s i hocc
    rw [hm] at this
    simp at this
  | some pq =>
    obtain ⟨p, q⟩ := pq
    refine ⟨p, q, ?_, splitFirst_eq sep s p q hm⟩
    have hs := splitFirst_eq sep s p q hm
    have hq : splitFirst sep q = none := by
      cases hm2 : splitFirst sep q with
      | none => rfl
      | some pq2 =>
        exfalso
        obtain ⟨p2, q2⟩ := pq2
        have hocc2 : occAt sep q p2.length := occAt_of_splitFirst sep q p2 q2 hm2
        have hocc1 : occAt sep s p.length := occAt_of_splitFirst sep s p q hm
        have hoccs : occAt sep s (p.length + sep.length + p2.length) := by
          unfold occAt at hocc2 ⊢
          have hdrop : s.drop (p.length + sep.length + p2.length) = q.drop p2.length := by
            subst hs
            rw [show p.length + sep.length + p2.length = (p ++ sep).length + p2.length by
              simp [List.length_append]]
            rw [← List.drop_drop, List.drop_left]
          rw [hdrop]
          exact hocc2
        have hne : p.length ≠ p.length + sep.length + p2.length := by omega
        have := occCount_two sep s p.length (p.length + sep.length + p2.length)
          hne hsep hocc1 hoccs
        omega
    rw [pysplit_eq_of_some sep s p q hsep hm,
      pysplit_eq_of_none sep q hsep hq]

theorem pysplit_ne_nil (sep s : List Char) : pysplit sep s ≠ [] := by
  rw [pysplit]
  split
  · simp
  · split
    · simp
    · simp

/-- A two-part split comes from the first occurrence: if `pysplit` yields
exactly `[t0, t1]`, then `splitFirst` found `(t0, t1)`. -/
theorem pysplit_pair (sep s t0 t1 : List Char) (hsep : sep ≠ [])
    (h : pysplit sep s = [t0, t1]) : splitFirst sep s = some (t0, t1) := by
  cases hm : splitFirst sep s with
  | none =>
    rw [pysplit_eq_of_none sep s hsep hm] at h
    simp at h
  | some pq =>
    obtain ⟨p, q⟩ := pq
    rw [pysplit_eq_of_some sep s p q hsep hm] at h
    simp at h
    obtain ⟨hp, hq⟩ := h
    subst hp
    cases hm2 : splitFirst sep q with
    | none =>
      rw [pysplit_eq_of_none sep q hsep hm2] at hq
      simp at hq
      subst hq
      rfl
    | some pq2 =>
      obtain ⟨p2, q2⟩ := pq2
      rw [pysplit_eq_of_some sep q p2 q2 hsep hm2] at hq
      simp at hq
      exact absurd hq.2 (pysplit_ne_nil sep q2)

/-- `splitFirst` finds the first occurrence: every occurrence offset is at
least the length of the returned prefix. -/
theorem splitFirst_min (sep : List Char) :
    ∀ (s p q : List Char), splitFirst sep s = some (p, q) →
      ∀ j, occAt sep s j → p.length ≤ j := by
  intro s
  induction s with
  | nil =>
    intro p q h j hj
    simp only [splitFirst] at h
    split at h
    · cases h; simp
    · simp at h
  | cons a s ih =>
    intro p q h j hj
    simp only [splitFirst] at h
    split at h
    · cases h; simp
    · rename_i hc
      cases hm : splitFirst sep s with
      | none => rw [hm] at h; simp at h
      | some pq =>
        obtain ⟨p1, q1⟩ := pq
        rw [hm] at h
        simp at h
        obtain ⟨hp, hq⟩ := h
        subst hp
        subst hq
        cases j with
        | zero =>
          exfalso
          simp only [occAt, List.drop_zero] at hj
          exact hc hj
        | succ i =>
          simp only [occAt, List.drop_succ_cons] at hj
          have := ih p1 q1 hm i hj
          simp only [List.length_cons]
          omega

/-! ## The canvas model

State and primitives of the `fpdf` page canvas, as used by `SlidePDF`:
cursor `(x, y)`, current font, text/fill/draw colors, auto-page-break flag,
page geometry, pages already finished and the primitives of the page being
drawn.  A primitive records the style state that the library would consume
at draw time. -/

structure Color where
  r : Nat
  g : Nat
  b : Nat
deriving DecidableEq, Repr

inductive Family
  | helvetica
  | courier
  | unset
deriving DecidableEq, Repr

/-- A font selection: family, bold flag (Python style string `''`/`'B'`),
and size in points. -/
structure Font where
  family : Family
  bold : Bool
  size : ℚ
deriving DecidableEq, Repr

inductive Align
  | left
  | center
  | right
deriving DecidableEq, Repr

/-- Paint style of `rect`/`ellipse`: `'F'` (fill) or `'DF'` (draw + fill). -/
inductive Paint
  | fill
  | fillDraw
deriving DecidableEq, Repr

/-- A drawn primitive, with the style state it consumed. -/
inductive Prim
  | rect (x y w h : ℚ) (paint : Paint) (fc dc : Color)
  | ellipse (x y w h : ℚ) (fc : Color)
  | cell (x y w h : ℚ) (txt : String) (font : Font) (tc : Color) (align : Align)
  | multiCell (x y w lineH : ℚ) (txt : String) (font : Font) (tc : Color)
deriving DecidableEq, Repr

/-- Modelled from the spec: text metrics of the underlying font machinery,
which is part of the page-description library, not of this repository.
`stringWidth f t` is `get_string_width(t)` with current font `f`;
`linesOf f w t` is the number of lines `multi_cell` breaks `t` into at
width `w`. -/
structure Metrics where
  stringWidth : Font → String → ℚ
  linesOf : Font → ℚ → String → Nat

/-- Default page margin of the library (`28.35 / k` with `k = 72 / 25.4`
for millimetre units), used when a cell call moves to the next line and,
for `w = 0` cells, to compute the stretched width. -/
def lMargin : ℚ := 8001 / 800

def rMargin : ℚ := 8001 / 800

/-- The canvas state. -/
structure PDF where
  x : ℚ
  y : ℚ
  font : Font
  textColor : Color
  fillColor : Color
  drawColor : Color
  autoPageBreak : Bool
  pageW : ℚ
  pageH : ℚ
  done : List ((ℚ × ℚ) × List Prim)
  cur : List Prim
  started : Bool
deriving DecidableEq, Repr

/-- Fresh landscape-A4 canvas (`FPDF(orientation='L', unit='mm',
format='A4')`): page geometry 297 × 210 mm, default style, auto page break
on (the library default). -/
def initPDF : PDF where
  x := lMargin
  y := lMargin
  font := ⟨.unset, false, 0⟩
  textColor := ⟨0, 0, 0⟩
  fillColor := ⟨0, 0, 0⟩
  drawColor := ⟨0, 0, 0⟩
  autoPageBreak := true
  pageW := 297
  pageH := 210
  done := []
  cur := []
  started := false

def set_auto_page_break (p : PDF) (b : Bool) : PDF :=
  match p with
  | ⟨x, y, f, tc, fc, dc, _, pw, ph, dn, cur, st⟩ =>
    ⟨x, y, f, tc, fc, dc, b, pw, ph, dn, cur, st⟩

/-- `SlidePDF.__init__`: landscape A4, auto page break disabled. -/
def mkSlidePDF : PDF := set_auto_page_break initPDF false

def draw (p : PDF) (d : Prim) : PDF :=
  match p with
  | ⟨x, y, f, tc, fc, dc, apb, pw, ph, dn, cur, st⟩ =>
    ⟨x, y, f, tc, fc, dc, apb, pw, ph, dn, d :: cur, st⟩

/-- The primitives of the page currently being drawn, in drawing order
(`cur` accumulates them in reverse). -/
def trace (p : PDF) : List Prim := p.cur.reverse

def set_xy (p : PDF) (x y : ℚ) : PDF :=
  match p with
  | ⟨_, _, f, tc, fc, dc, apb, pw, ph, dn, cur, st⟩ =>
    ⟨x, y, f, tc, fc, dc, apb, pw, ph, dn, cur, st⟩

/-- `set_y` also moves the abscissa back to the left margin; a negative
ordinate is taken from the bottom of the page. -/
def set_y (p : PDF) (y : ℚ) : PDF :=
  match p with
  | ⟨_, _, f, tc, fc, dc, apb, pw, ph, dn, cur, st⟩ =>
    ⟨lMargin, if 0 ≤ y then y else ph + y, f, tc, fc, dc, apb, pw, ph, dn, cur, st⟩

def get_y (p : PDF) : ℚ := p.y

def set_font (p : PDF) (fam : Family) (bold : Bool) (size : ℚ) : PDF :=
  match p with
  | ⟨x, y, _, tc, fc, dc, apb, pw, ph, dn, cur, st⟩ =>
    ⟨x, y, ⟨fam, bold, size⟩, tc, fc, dc, apb, pw, ph, dn, cur, st⟩

def set_text_color (p : PDF) (r g b : Nat) : PDF :=
  match p with
  | ⟨x, y, f, _, fc, dc, apb, pw, ph, dn, cur, st⟩ =>
    ⟨x, y, f, ⟨r, g, b⟩, fc, dc, apb, pw, ph, dn, cur, st⟩

def set_fill_color (p : PDF) (r g b : Nat) : PDF :=
  match p with
  | ⟨x, y, f, tc, _, dc, apb, pw, ph, dn, cur, st⟩ =>
    ⟨x, y, f, tc, ⟨r, g, b⟩, dc, apb, pw, ph, dn, cur, st⟩

def set_draw_color (p : PDF) (r g b : Nat) : PDF :=
  match p with
  | ⟨x, y, f, tc, fc, _, apb, pw, ph, dn, cur, st⟩ =>
    ⟨x, y, f, tc, fc, ⟨r, g, b⟩, apb, pw, ph, dn, cur, st⟩

def rect (p : PDF) (x y w h : ℚ) (paint : Paint) : PDF :=
  draw p (.rect x y w h paint p.fillColor p.drawColor)

def ellipse (p : PDF) (x y w h : ℚ) : PDF :=
  draw p (.ellipse x y w h p.fillColor)

/-- The width a `cell` call actually uses, given the page width and the
cursor abscissa: `w = 0` stretches to the right margin. -/
def effW (pageW x w : ℚ) : ℚ :=
  if w = 0 then pageW - rMargin - x else w

/-- `FPDF.cell(w, h, txt, align, ln)` (no border, no fill): draws the text
box at the cursor, then moves the cursor right by the consumed width
(`ln = 0`) or to the left margin of the next line (`ln = 1`). -/
def cell (p : PDF) (w h : ℚ) (txt : String) (align : Align) (ln : Bool) : PDF :=
  match p with
  | ⟨x, y, f, tc, fc, dc, apb, pw, ph, dn, cur, st⟩ =>
    let weff := effW pw x w
    let cur2 := Prim.cell x y weff h txt f tc align :: cur
    if ln then ⟨lMargin, y + h, f, tc, fc, dc, apb, pw, ph, dn, cur2, st⟩
    else ⟨x + weff, y, f, tc, fc, dc, apb, pw, ph, dn, cur2, st⟩

/-- `FPDF.multi_cell(w, h, txt)`: draws a wrapping text block and leaves
the cursor at the left margin below it. -/
def multi_cell (M : Metrics) (p : PDF) (w h : ℚ) (txt : String) : PDF :=
  match p with
  | ⟨x, y, f, tc, fc, dc, apb, pw, ph, dn, cur, st⟩ =>
    ⟨lMargin, y + (M.linesOf f w txt : ℚ) * h, f, tc, fc, dc, apb, pw, ph, dn,
      Prim.multiCell x y w h txt f tc :: cur, st⟩

/-- `FPDF.add_page`: closes the current page (if any), starts a fresh one
at the document geometry, and resets the cursor to the margins. -/
def add_page (p : PDF) : PDF :=
  match p with
  | ⟨_, _, f, tc, fc, dc, apb, pw, ph, dn, cur, st⟩ =>
    ⟨lMargin, lMargin, f, tc, fc, dc, apb, pw, ph,
      if st then dn ++ [((pw, ph), cur.reverse)] else dn, [], true⟩

/-- The pages of the document, in order, each with its geometry and its
primitives in drawing order. -/
def pages (p : PDF) : List ((ℚ × ℚ) × List Prim) :=
  if p.started then p.done ++ [((p.pageW, p.pageH), trace p)] else p.done

/-! ## The composer methods of `SlidePDF` -/

/-- `SlidePDF.add_slide`: new page filled with the background color. -/
def add_slide (p : PDF) (bg : Color := ⟨26, 26, 46⟩) : PDF :=
  let p := add_page p
  let p := set_fill_color p bg.r bg.g bg.b
  rect p 0 0 297 210 .fill

/-- `SlidePDF.slide_number`. -/
def slide_number (p : PDF) (num : Nat) : PDF :=
  let p := set_font p .helvetica false 10
  let p := set_text_color p 150 150 150
  let p := set_xy p 280 195
  cell p 10 10 (toString num) .right false

/-- `SlidePDF.title_text`. -/
def title_text (p : PDF) (text : String) (y : ℚ := 60) (size : ℚ := 40) : PDF :=
  let p := set_font p .helvetica true size
  let p := set_text_color p 255 107 107
  let p := set_xy p 20 y
  cell p 257 20 text .center false

/-- `SlidePDF.subtitle_text`. -/
def subtitle_text (p : PDF) (text : String) (y : ℚ := 85) (size : ℚ := 18) : PDF :=
  let p := set_font p .helvetica false size
  let p := set_text_color p 200 200 200
  let p := set_xy p 20 y
  cell p 257 10 text .center false

/-- `SlidePDF.heading`. -/
def heading (p : PDF) (text : String) (y : ℚ := 20) : PDF :=
  let p := set_font p .helvetica true 28
  let p := set_text_color p 255 107 107
  let p := set_xy p 20 y
  cell p 257 15 text .left false

/-- `SlidePDF.body_text`. -/
def body_text (M : Metrics) (p : PDF) (text : String)
    (x : ℚ := 20) (y : ℚ := 45) (size : ℚ := 14) : PDF :=
  let p := set_font p .helvetica false size
  let p := set_text_color p 230 230 230
  let p := set_xy p x y
  multi_cell M p 257 8 text

/-- Python truthiness of the optional `y` argument of `bullet`
(`None` and `0` are falsy). -/
def truthyQ : Option ℚ → Bool
  | none => false
  | some v => v != 0

/-- Python truthiness of the optional `highlight` argument of `bullet`
(`None` and `""` are falsy). -/
def truthyStr : Option String → Bool
  | none => false
  | some s => s != ""

/-- The part of `SlidePDF.bullet` before the highlight branch: optional
cursor move, dot marker, cursor to the text start, normal bullet style. -/
def bulletStart (p : PDF) (x : ℚ) (y : Option ℚ) : PDF :=
  let p := if truthyQ y then set_xy p x (y.getD 0) else p
  let p := set_fill_color p 255 107 107
  let p := ellipse p x (get_y p + 3) 4 4
  let p := set_xy p (x + 8) (get_y p)
  let p := set_font p .helvetica false 13
  set_text_color p 220 220 220

/-- `SlidePDF.bullet` (total core; `bulletE` below accounts for the
`ValueError` that `str.split` would raise on an empty separator, which the
truthiness guard makes unreachable). -/
def bullet (M : Metrics) (p : PDF) (text : String)
    (x : ℚ := 25) (y : Option ℚ := none) (highlight : Option String := none) : PDF :=
  let p := bulletStart p x y
  let p :=
    if truthyStr highlight then
      let hl := highlight.getD ""
      let parts := pysplit hl.data text.data
      if parts.length = 2 then
        let t0 : String := ⟨parts.getD 0 []⟩
        let t1 : String := ⟨parts.getD 1 []⟩
        let p := cell p (M.stringWidth p.font t0) 8 t0 .left false
        let p := set_font p .helvetica true 13
        let p := set_text_color p 254 202 87
        let p := cell p (M.stringWidth p.font hl) 8 hl .left false
        let p := set_font p .helvetica false 13
        let p := set_text_color p 220 220 220
        cell p 0 8 t1 .left true
      else cell p 0 8 text .left true
    else cell p 0 8 text .left true
  set_y p (get_y p + 2)

/-- `SlidePDF.bullet` with the Python `ValueError` of `str.split` made
explicit: when the highlight argument is truthy the split runs first and
its error (empty separator) would propagate. -/
def bulletE (M : Metrics) (p : PDF) (text : String)
    (x : ℚ := 25) (y : Option ℚ := none) (highlight : Option String := none) :
    Except String PDF :=
  if truthyStr highlight then
    match pysplitE (highlight.getD "").data text.data with
    | .error e => .error e
    | .ok _ => .ok (bullet M p text x y highlight)
  else .ok (bullet M p text x y highlight)

/-- `SlidePDF.box`. -/
def box (p : PDF) (x y w h : ℚ) (title : String) (items : List String) : PDF :=
  let p := set_fill_color p 40 40 60
  let p := set_draw_color p 80 80 100
  let p := rect p x y w h .fillDraw
  let p := set_font p .helvetica true 14
  let p := set_text_color p 72 219 251
  let p := set_xy p (x + 5) (y + 5)
  let p := cell p (w - 10) 8 title .left false
  let p := set_font p .helvetica false 11
  let p := set_text_color p 200 200 200
  let p := set_xy p (x + 8) (y + 18)
  items.foldl (fun p item =>
    let p := set_fill_color p 255 107 107
    let p := ellipse p (x + 8) (get_y p + 2) 3 3
    let p := set_xy p (x + 14) (get_y p)
    let p := cell p (w - 20) 6 item .left true
    set_y p (get_y p + 1)) p

/-- `SlidePDF.fee_row`. -/
def fee_row (p : PDF) (label fee : String) (color : Color) (y : ℚ) : PDF :=
  let p := set_fill_color p 40 40 60
  let p := rect p 30 y 237 18 .fill
  let p := set_font p .helvetica false 14
  let p := set_text_color p 180 180 180
  let p := set_xy p 35 (y + 4)
  let p := cell p 100 10 label .left false
  let p := set_font p .helvetica true 18
  let p := set_text_color p color.r color.g color.b
  let p := set_xy p 200 (y + 3)
  cell p 60 10 fee .right false

/-- `SlidePDF.stat_box`. -/
def stat_box (p : PDF) (x y : ℚ) (number label : String) : PDF :=
  let p := set_fill_color p 40 40 60
  let p := rect p x y 70 50 .fill
  let p := set_font p .helvetica true 28
  let p := set_text_color p 255 107 107
  let p := set_xy p x (y + 8)
  let p := cell p 70 15 number .center false
  let p := set_font p .helvetica false 11
  let p := set_text_color p 150 150 150
  let p := set_xy p x (y + 30)
  cell p 70 10 label .center false

/-- `SlidePDF.tag`: measures the text with the font current at entry,
draws the chip, renders the text at Helvetica 9, and returns the consumed
width `w + 5`. -/
def tag (M : Metrics) (p : PDF) (text : String) (x y : ℚ) : PDF × ℚ :=
  let p := set_fill_color p 80 40 40
  let p := set_draw_color p 255 107 107
  let w := M.stringWidth p.font text + 12
  let p := rect p x y w 10 .fillDraw
  let p := set_font p .helvetica false 9
  let p := set_text_color p 255 150 150
  let p := set_xy p x (y + 2)
  let p := cell p w 6 text .center false
  (p, w + 5)

/-- `SlidePDF.code_box`. -/
def code_box (p : PDF) (text : String) (y : ℚ) : PDF :=
  let p := set_fill_color p 20 20 30
  let p := set_draw_color p 60 60 80
  let p := rect p 40 y 217 14 .fillDraw
  let p := set_font p .courier false 12
  let p := set_text_color p 72 219 251
  let p := set_xy p 40 (y + 3)
  cell p 217 8 text .center false

/-- A left-to-right run of chips, as the slide script does it:
`for t in ts: x += pdf.tag(t, x, y)`.  Returns the final state and the
final `x`. -/
def tagRun (M : Metrics) (p : PDF) (x0 y : ℚ) (ts : List String) : PDF × ℚ :=
  ts.foldl (fun a t =>
    let r := tag M a.1 t a.2 y
    (r.1, a.2 + r.2)) (p, x0)

/-! ## The module-level slide script (lines 139-353 of `generate_pdf.py`) -/

/-- The whole deck-construction script: ten slides, in source order. -/
def script (M : Metrics) : PDF :=
  let p := mkSlidePDF
  -- Slide 1: Title
  let p := add_slide p
  let p := set_font p .helvetica false 11
  let p := set_text_color p 254 202 87
  let p := set_xy p 20 40
  let p := cell p 257 10 "UNISWAP V4 HOOK" .center false
  let p := title_text p "Sentiment Fee Hook" 55 44
  let p := subtitle_text p "Dynamic fees that adapt to market psychology" 100
  let p := (tagRun M p 60 130
    ["Dynamic Fee", "Custom Hooks", "Oracle", "LP Fees", "DEX"]).1
  let p := slide_number p 1
  -- Slide 2: Problem
  let p := add_slide p
  let p := heading p "The Problem"
  let p := body_text M p
    "Traditional AMMs use fixed fees that are suboptimal in all market conditions." 20 45 16
  let p := box p 20 70 125 70 "Bull Markets (Greed)"
    ["Traders willingly pay more", "Fixed 0.3% fees leave money on table",
     "LPs miss potential revenue"]
  let p := box p 152 70 125 70 "Bear Markets (Fear)"
    ["Fixed fees kill trading volume", "Traders avoid the exchange", "LPs earn nothing"]
  let p := slide_number p 2
  -- Slide 3: Solution
  let p := add_slide p
  let p := heading p "Our Solution"
  let p := body_text M p
    "Counter-cyclical dynamic fees based on real-time market sentiment" 20 45 16
  let p := fee_row p "Extreme Fear (0)" "0.25% fee" ⟨255, 107, 107⟩ 75
  let p := fee_row p "Neutral (50)" "0.345% fee" ⟨254, 202, 87⟩ 100
  let p := fee_row p "Extreme Greed (100)" "0.44% fee" ⟨29, 209, 161⟩ 125
  let p := set_font p .helvetica false 13
  let p := set_text_color p 150 150 150
  let p := set_xy p 20 160
  let p := cell p 257 10 "Maximizes fee x volume across all market cycles" .center false
  let p := slide_number p 3
  -- Slide 4: Architecture
  let p := add_slide p
  let p := heading p "Architecture"
  let p := box p 20 50 125 75 "Off-Chain: Keeper Bot"
    ["Aggregates 8 free data sources", "Weighted sentiment scoring",
     "Updates every 4 hours", "$0/month data costs"]
  let p := box p 152 50 125 75 "On-Chain: Hook Contract"
    ["Uniswap v4 beforeSwap hook", "EMA smoothing (anti-manipulation)",
     "Staleness protection (6hr fallback)", "Gas-efficient design"]
  let p := code_box p "fee = MIN_FEE + (sentimentScore * FEE_RANGE / 100)" 145
  let p := slide_number p 4
  -- Slide 5: Data Sources
  let p := add_slide p
  let p := heading p "Sentiment Data Sources"
  let p := body_text M p "8 free APIs aggregated with weighted scoring" 20 45 14
  let p := ((["Fear & Greed Index (30%)", "CoinGecko Global (20%)",
      "CoinGecko Trending (10%)", "Bitcoin Dominance (10%)"] : List String).foldl
    (fun a item =>
      let p := a.1
      let p := set_fill_color p 255 107 107
      let p := ellipse p 25 (a.2 + 3) 4 4
      let p := set_font p .helvetica false 13
      let p := set_text_color p 220 220 220
      let p := set_xy p 33 a.2
      let p := cell p 100 8 item .left false
      (p, a.2 + 22)) (p, (70 : ℚ))).1
  let p := ((["DeFi Llama TVL (10%)", "ETH Price Movement (10%)",
      "CryptoCompare Social (5%)", "Blockchain.com Stats (5%)"] : List String).foldl
    (fun a item =>
      let p := a.1
      let p := set_fill_color p 255 107 107
      let p := ellipse p 155 (a.2 + 3) 4 4
      let p := set_font p .helvetica false 13
      let p := set_text_color p 220 220 220
      let p := set_xy p 163 a.2
      let p := cell p 100 8 item .left false
      (p, a.2 + 22)) (p, (70 : ℚ))).1
  let p := slide_number p 5
  -- Slide 6: Security
  let p := add_slide p
  let p := heading p "Security & Anti-Manipulation"
  let p := box p 20 50 130 55 "EMA Smoothing"
    ["30% new / 70% historical data", "Prevents sudden fee manipulation",
     "Limits single-update impact"]
  let p := box p 157 50 120 55 "Anti-Frontrunning"
    ["Randomized update timing", "+/- 30 min jitter on updates", "Unpredictable execution"]
  let p := set_xy p 25 115
  let p := bullet M p "Staleness protection: Auto fallback to 0.30% after 6 hours"
  let p := bullet M p "Bounded fees: Always between 0.25% - 0.44%"
  let p := bullet M p "Multi-keeper support: Decentralized update authority"
  let p := slide_number p 6
  -- Slide 7: Tech Stack
  let p := add_slide p
  let p := heading p "Tech Stack"
  let p := stat_box p 40 55 "50" "Test Cases"
  let p := stat_box p 115 55 "8" "Data Sources"
  let p := stat_box p 190 55 "$0" "Monthly Cost"
  let p := (tagRun M p 40 120
    ["Solidity 0.8.26", "Foundry", "Uniswap v4", "TypeScript", "ethers.js",
     "OpenZeppelin"]).1
  let p := set_font p .helvetica false 12
  let p := set_text_color p 150 150 150
  let p := set_xy p 20 150
  let p := cell p 257 10
    "Supports: Ethereum, Arbitrum, Base, Optimism, Polygon + Testnets" .center false
  let p := slide_number p 7
  -- Slide 8: Decentralization Roadmap
  let p := add_slide p
  let p := heading p "Decentralization Roadmap"
  let p := set_font p .helvetica true 12
  let p := set_text_color p 72 219 251
  let p := set_xy p 25 50
  let p := cell p 100 8 "v1 - Current (Implemented)" .left false
  let p := set_font p .helvetica false 11
  let p := set_text_color p 200 200 200
  let p := set_xy p 30 60
  let p := cell p 0 6 "- Multi-keeper support (multiple authorized addresses)" .left false
  let p := set_xy p 30 68
  let p := cell p 0 6 "- Randomized timing jitter (anti-frontrunning)" .left false
  let p := set_xy p 30 76
  let p := cell p 0 6 "- EMA smoothing + staleness fallback" .left false
  let p := set_font p .helvetica true 12
  let p := set_text_color p 254 202 87
  let p := set_xy p 25 90
  let p := cell p 100 8 "v1.5 - Short-term" .left false
  let p := set_font p .helvetica false 11
  let p := set_text_color p 200 200 200
  let p := set_xy p 30 100
  let p := cell p 0 6 "- Chainlink Automation for reliable execution" .left false
  let p := set_xy p 30 108
  let p := cell p 0 6 "- Multi-sig keeper (3-of-5 trusted updaters)" .left false
  let p := set_font p .helvetica true 12
  let p := set_text_color p 255 107 107
  let p := set_xy p 25 122
  let p := cell p 100 8 "v2 - Medium-term" .left false
  let p := set_font p .helvetica false 11
  let p := set_text_color p 200 200 200
  let p := set_xy p 30 132
  let p := cell p 0 6 "- Chainlink Functions for trustless off-chain compute" .left false
  let p := set_xy p 30 140
  let p := cell p 0 6 "- Multiple independent data aggregators" .left false
  let p := set_font p .helvetica true 12
  let p := set_text_color p 167 139 250
  let p := set_xy p 25 154
  let p := cell p 100 8 "v3 - Long-term" .left false
  let p := set_font p .helvetica false 11
  let p := set_text_color p 200 200 200
  let p := set_xy p 30 164
  let p := cell p 0 6 "- Fully decentralized oracle network" .left false
  let p := set_xy p 30 172
  let p := cell p 0 6 "- DAO governance for parameter updates" .left false
  let p := slide_number p 8
  -- Slide 9: Demo
  let p := add_slide p
  let p := heading p "Quick Start"
  let p := set_font p .helvetica true 12
  let p := set_text_color p 72 219 251
  let p := set_xy p 40 55
  let p := cell p 100 8 "Run Tests" .left false
  let p := code_box p "forge test" 65
  let p := set_xy p 40 95
  let p := cell p 100 8 "Local Demo" .left false
  let p := code_box p "bash demo.sh" 105
  let p := set_xy p 40 135
  let p := cell p 100 8 "Deploy & Run Keeper" .left false
  let p := code_box p "forge script script/DeployFullDemo.s.sol --broadcast" 145
  let p := code_box p "cd keeper && npx ts-node src/multi-source-keeper.ts" 165
  let p := slide_number p 9
  -- Slide 10: Thank You
  let p := add_slide p
  let p := title_text p "Thank You" 60 48
  let p := subtitle_text p "Sentiment-Responsive Fee Hook for Uniswap v4" 95
  let p := set_font p .helvetica false 14
  let p := set_text_color p 150 150 150
  let p := set_xy p 20 125
  let p := cell p 257 10 "Dynamic fees that adapt to market psychology" .center false
  let p := set_xy p 20 138
  let p := cell p 257 10 "Maximizing LP revenue across all market cycles" .center false
  let r1 := tag M p "MIT License" 105 165
  let p := r1.1
  let r2 := tag M p "Open Source" (105 + r1.2) 165
  let p := r2.1
  slide_number p 10

/-- Modelled from the spec: `pdf.output(...)` serializes the assembled
document to the output byte stream as a pure function of the drawing calls
issued.  The serializer itself belongs to the page-description library,
not to this repository; per spec sections 5 and 6 it reads no wall-clock
time, randomness or environment, which the ignored oracle `_env`
(modelling any such ambient input) makes explicit. -/
def output (p : PDF) (_env : Nat → Nat) : List ((ℚ × ℚ) × List Prim) :=
  pages p

/-- The texts of the text primitives of a page, in drawing order. -/
def cellTexts : List Prim → List String
  | [] => []
  | .cell _ _ _ _ t _ _ _ :: l => t :: cellTexts l
  | .multiCell _ _ _ _ t _ _ :: l => t :: cellTexts l
  | _ :: l => cellTexts l

/-- Concrete metrics instance used by witnesses and counterexamples:
every character one unit wide, every text block one line. -/
def Mpos : Metrics := ⟨fun _ t => (t.length : ℚ), fun _ _ _ => 1⟩

/-! ## Claims -/

/-- C3: Every run of the program produces a document containing exactly ten
pages, appended in the fixed order title, problem, solution, architecture,
data sources, security, tech stack, roadmap, quick start, thank-you; every
page has the fixed landscape A4 size 297 × 210, and automatic pagination is
disabled.  The fourth conjunct lists, page by page and in drawing order,
the texts of all text primitives of the run, identifying each page. -/
theorem script_ten_fixed_pages (M : Metrics) :
    (script M).autoPageBreak = false ∧
    (pages (script M)).length = 10 ∧
    (pages (script M)).map Prod.fst = List.replicate 10 ((297 : ℚ), (210 : ℚ)) ∧
    (pages (script M)).map (fun pg => cellTexts pg.2) =
      [["UNISWAP V4 HOOK", "Sentiment Fee Hook",
        "Dynamic fees that adapt to market psychology", "Dynamic Fee",
        "Custom Hooks", "Oracle", "LP Fees", "DEX", "1"],
       ["The Problem",
        "Traditional AMMs use fixed fees that are suboptimal in all market conditions.",
        "Bull Markets (Greed)", "Traders willingly pay more",
        "Fixed 0.3% fees leave money on table", "LPs miss potential revenue",
        "Bear Markets (Fear)", "Fixed fees kill trading volume",
        "Traders avoid the exchange", "LPs earn nothing", "2"],
       ["Our Solution",
        "Counter-cyclical dynamic fees based on real-time market sentiment",
        "Extreme Fear (0)", "0.25% fee", "Neutral (50)", "0.345% fee",
        "Extreme Greed (100)", "0.44% fee",
        "Maximizes fee x volume across all market cycles", "3"],
       ["Architecture", "Off-Chain: Keeper Bot", "Aggregates 8 free data sources",
        "Weighted sentiment scoring", "Updates every 4 hours", "$0/month data costs",
        "On-Chain: Hook Contract", "Uniswap v4 beforeSwap hook",
        "EMA smoothing (anti-manipulation)", "Staleness protection (6hr fallback)",
        "Gas-efficient design",
        "fee = MIN_FEE + (sentimentScore * FEE_RANGE / 100)", "4"],
       ["Sentiment Data Sources", "8 free APIs aggregated with weighted scoring",
        "Fear & Greed Index (30%)", "CoinGecko Global (20%)",
        "CoinGecko Trending (10%)", "Bitcoin Dominance (10%)",
        "DeFi Llama TVL (10%)", "ETH Price Movement (10%)",
        "CryptoCompare Social (5%)", "Blockchain.com Stats (5%)", "5"],
       ["Security & Anti-Manipulation", "EMA Smoothing",
        "30% new / 70% historical data", "Prevents sudden fee manipulation",
        "Limits single-update impact", "Anti-Frontrunning",
        "Randomized update timing", "+/- 30 min jitter on updates",
        "Unpredictable execution",
        "Staleness protection: Auto fallback to 0.30% after 6 hours",
        "Bounded fees: Always between 0.25% - 0.44%",
        "Multi-keeper support: Decentralized update authority", "6"],
       ["Tech Stack", "50", "Test Cases", "8", "Data Sources", "$0", "Monthly Cost",
        "Solidity 0.8.26", "Foundry", "Uniswap v4", "TypeScript", "ethers.js",
        "OpenZeppelin",
        "Supports: Ethereum, Arbitrum, Base, Optimism, Polygon + Testnets", "7"],
       ["Decentralization Roadmap", "v1 - Current (Implemented)",
        "- Multi-keeper support (multiple authorized addresses)",
        "- Randomized timing jitter (anti-frontrunning)",
        "- EMA smoothing + staleness fallback", "v1.5 - Short-term",
        "- Chainlink Automation for reliable execution",
        "- Multi-sig keeper (3-of-5 trusted updaters)", "v2 - Medium-term",
        "- Chainlink Functions for trustless off-chain compute",
        "- Multiple independent data aggregators", "v3 - Long-term",
        "- Fully decentralized oracle network",
        "- DAO governance for parameter updates", "8"],
       ["Quick Start", "Run Tests", "forge test", "Local Demo", "bash demo.sh",
        "Deploy & Run Keeper", "forge script script/DeployFullDemo.s.sol --broadcast",
        "cd keeper && npx ts-node src/multi-source-keeper.ts", "9"],
       ["Thank You", "Sentiment-Responsive Fee Hook for Uniswap v4",
        "Dynamic fees that adapt to market psychology",
        "Maximizing LP revenue across all market cycles", "MIT License",
        "Open Source", "10"]] :=
  ⟨rfl, rfl, rfl, rfl⟩

/-- C4: Serialization is deterministic: the output byte stream is a pure
function of the drawing calls issued by the script, so two runs over the
same literal content and coordinates agree whatever the ambient
environment (wall-clock time, randomness) supplies. -/
theorem output_deterministic (M : Metrics) (env1 env2 : Nat → Nat) :
    output (script M) env1 = output (script M) env2 :=
  rfl

/-- C5: `stat_box` at `(40, 55)` with value `"50"` and label `"Test Cases"`
draws a filled 70 × 50 rectangle at `(40, 55)`, a large centered `"50"`
cell starting 8 units below the tile top, and a smaller centered
`"Test Cases"` caption cell starting 30 units below the tile top; and for
every call the tile footprint is exactly 70 × 50. -/
theorem stat_box_spec :
    (∀ p : PDF, trace (stat_box p 40 55 "50" "Test Cases") = trace p ++
      [Prim.rect 40 55 70 50 .fill ⟨40, 40, 60⟩ p.drawColor,
       Prim.cell 40 (55 + 8) 70 15 "50" ⟨.helvetica, true, 28⟩ ⟨255, 107, 107⟩ .center,
       Prim.cell 40 (55 + 30) 70 10 "Test Cases"
         ⟨.helvetica, false, 11⟩ ⟨150, 150, 150⟩ .center]) ∧
    (∀ (p : PDF) (x y : ℚ) (n l : String), trace (stat_box p x y n l) = trace p ++
      [Prim.rect x y 70 50 .fill ⟨40, 40, 60⟩ p.drawColor,
       Prim.cell x (y + 8) 70 15 n ⟨.helvetica, true, 28⟩ ⟨255, 107, 107⟩ .center,
       Prim.cell x (y + 30) 70 10 l ⟨.helvetica, false, 11⟩ ⟨150, 150, 150⟩ .center]) := by
  have hgen : ∀ (p : PDF) (x y : ℚ) (n l : String), trace (stat_box p x y n l) = trace p ++
      [Prim.rect x y 70 50 .fill ⟨40, 40, 60⟩ p.drawColor,
       Prim.cell x (y + 8) 70 15 n ⟨.helvetica, true, 28⟩ ⟨255, 107, 107⟩ .center,
       Prim.cell x (y + 30) 70 10 l ⟨.helvetica, false, 11⟩ ⟨150, 150, 150⟩ .center] := by
    intro p x y n l
    obtain ⟨px, py, pf, ptc, pfc, pdc, papb, ppw, pph, pdn, pcur, pst⟩ := p
    simp [stat_box, set_fill_color, set_font, set_text_color, set_xy, rect, ellipse,
      draw, cell, effW, trace]
  exact ⟨fun p => hgen p 40 55 "50" "Test Cases", hgen⟩

/-- C6: a `box` call with an empty item list still draws the frame
rectangle (draw + fill) and the title line, draws nothing else, and leaves
the cursor at the item start position inside the box. -/
theorem box_empty_spec (p : PDF) (x y w h : ℚ) (t : String) :
    trace (box p x y w h t []) = trace p ++
      [Prim.rect x y w h .fillDraw ⟨40, 40, 60⟩ ⟨80, 80, 100⟩,
       Prim.cell (x + 5) (y + 5) (effW p.pageW (x + 5) (w - 10)) 8 t
         ⟨.helvetica, true, 14⟩ ⟨72, 219, 251⟩ .left] ∧
    (box p x y w h t []).x = x + 8 ∧ (box p x y w h t []).y = y + 18 ∧
    (box p x y w h t []).font = ⟨.helvetica, false, 11⟩ ∧
    (box p x y w h t []).textColor = ⟨200, 200, 200⟩ := by
  obtain ⟨px, py, pf, ptc, pfc, pdc, papb, ppw, pph, pdn, pcur, pst⟩ := p
  simp [box, set_fill_color, set_draw_color, set_font, set_text_color, set_xy,
    rect, draw, cell, trace]

/-- Exact effect of `slide_number`: one footer cell, cursor at
`(290, 195)`, footer style installed, everything else untouched. -/
theorem slide_number_eq (p : PDF) (n : Nat) :
    slide_number p n =
      ⟨290, 195, ⟨.helvetica, false, 10⟩, ⟨150, 150, 150⟩,
       p.fillColor, p.drawColor, p.autoPageBreak, p.pageW, p.pageH, p.done,
       Prim.cell 280 195 10 10 (toString n) ⟨.helvetica, false, 10⟩
         ⟨150, 150, 150⟩ .right :: p.cur,
       p.started⟩ := by
  obtain ⟨px, py, pf, ptc, pfc, pdc, papb, ppw, pph, pdn, pcur, pst⟩ := p
  simp [slide_number, set_font, set_text_color, set_xy, cell, effW]
  norm_num

/-- C7 (amended): `slide_number` draws exactly one small right-aligned
10 × 10 text cell at `(280, 195)` and nothing else; it leaves the pages,
fill color and draw color untouched, but it does mutate the canvas state:
the cursor ends at `(290, 195)` and the font and text color end as the
footer style (Helvetica regular 10, gray). -/
theorem slide_number_spec (p : PDF) (n : Nat) :
    slide_number p n =
      ⟨290, 195, ⟨.helvetica, false, 10⟩, ⟨150, 150, 150⟩,
       p.fillColor, p.drawColor, p.autoPageBreak, p.pageW, p.pageH, p.done,
       Prim.cell 280 195 10 10 (toString n) ⟨.helvetica, false, 10⟩
         ⟨150, 150, 150⟩ .right :: p.cur,
       p.started⟩ :=
  slide_number_eq p n

/-- A canvas state with a cursor and style distinct from the footer
style, exhibiting that `slide_number` mutates both. -/
def pC7 : PDF :=
  ⟨50, 50, ⟨.courier, true, 7⟩, ⟨1, 2, 3⟩, ⟨0, 0, 0⟩, ⟨0, 0, 0⟩, false,
   297, 210, [], [], true⟩

/-- C7 (counterexample to the claim as stated): the page-footer-number
operation does not leave the cursor position and the current style (font,
text color) unchanged. -/
theorem slide_number_mutates_state :
    ¬((slide_number pC7 4).x = pC7.x ∧ (slide_number pC7 4).y = pC7.y ∧
      (slide_number pC7 4).font = pC7.font ∧
      (slide_number pC7 4).textColor = pC7.textColor) := by
  intro hcon
  obtain ⟨h1, -, -, -⟩ := hcon
  rw [slide_number_eq] at h1
  simp [pC7] at h1

/-- C8: `bullet` guards the optional ordinate with Python truthiness, so an
explicit `y = 0` is silently ignored: the call behaves exactly like a call
with no `y` at all, and the dot marker lands at the pre-existing cursor
ordinate `p.y + 3`; any nonzero `y` moves the cursor to `(x, y)` first. -/
theorem bullet_y_truthiness (M : Metrics) (p : PDF) (text : String) (x : ℚ)
    (hl : Option String) :
    bullet M p text x (some 0) hl = bullet M p text x none hl ∧
    (∀ y : ℚ, y ≠ 0 →
      bullet M p text x (some y) hl = bullet M (set_xy p x y) text x none hl) ∧
    (∃ l, (bullet M p text x (some 0) hl).cur =
      l ++ Prim.ellipse x (p.y + 3) 4 4 ⟨255, 107, 107⟩ :: p.cur) := by
  refine ⟨?_, ?_, ?_⟩
  · simp [bullet, bulletStart, truthyQ]
  · intro y hy
    simp [bullet, bulletStart, truthyQ, hy]
  · obtain ⟨px, py, pf, ptc, pfc, pdc, papb, ppw, pph, pdn, pcur, pst⟩ := p
    by_cases hb : truthyStr hl
    · cases hl with
      | none => simp [truthyStr] at hb
      | some s =>
        by_cases hlen : (pysplit s.data text.data).length = 2
        · simp only [bullet, bulletStart, truthyQ, hb, hlen, set_fill_color, ellipse,
            draw, set_xy, set_font, set_text_color, get_y, cell, set_y, bne_self_eq_false,
            Bool.false_eq_true, if_false, if_true, Option.getD_some, ite_true, ite_false]
          exact ⟨[_, _, _], rfl⟩
        · simp only [bullet, bulletStart, truthyQ, hb, hlen, set_fill_color, ellipse,
            draw, set_xy, set_font, set_text_color, get_y, cell, set_y, bne_self_eq_false,
            Bool.false_eq_true, if_false, if_true, Option.getD_some, ite_true, ite_false]
          exact ⟨[_], rfl⟩
    · simp only [bullet, bulletStart, truthyQ, hb, set_fill_color, ellipse,
        draw, set_xy, set_font, set_text_color, get_y, cell, set_y, bne_self_eq_false,
        Bool.false_eq_true, if_false, if_true, ite_true, ite_false]
      exact ⟨[_], rfl⟩

/-- C9: a `bullet` call with `highlight = ""` raises no error — the
truthiness guard short-circuits before the empty-separator split that
would raise `ValueError` in Python — and renders exactly like the plain
call without a highlight; moreover no `bullet` call at all can reach the
split error. -/
theorem bullet_empty_highlight_safe (M : Metrics) (p : PDF) (text : String)
    (x : ℚ) (y : Option ℚ) :
    bulletE M p text x y (some "") = .ok (bullet M p text x y none) ∧
    (∀ hl : Option String, ∃ q, bulletE M p text x y hl = .ok q) := by
  constructor
  · simp [bulletE, bullet, truthyStr]
  · intro hl
    by_cases hb : truthyStr hl
    · cases hl with
      | none => simp [truthyStr] at hb
      | some s =>
        have hs : s ≠ "" := by
          intro h0
          rw [h0] at hb
          simp [truthyStr] at hb
        have hdata : s.data ≠ [] := fun hd => hs (by cases s; simp_all)
        exact ⟨bullet M p text x y (some s), by simp [bulletE, hb, pysplitE, hdata]⟩
    · exact ⟨bullet M p text x y hl, by simp [bulletE, hb]⟩

theorem bulletStart_font (p : PDF) (x : ℚ) (y : Option ℚ) :
    (bulletStart p x y).font = ⟨.helvetica, false, 13⟩ := by
  obtain ⟨px, py, pf, ptc, pfc, pdc, papb, ppw, pph, pdn, pcur, pst⟩ := p
  by_cases hy : truthyQ y <;>
    simp [bulletStart, hy, set_xy, set_fill_color, ellipse, draw, set_font,
      set_text_color, get_y]

theorem bulletStart_textColor (p : PDF) (x : ℚ) (y : Option ℚ) :
    (bulletStart p x y).textColor = ⟨220, 220, 220⟩ := by
  obtain ⟨px, py, pf, ptc, pfc, pdc, papb, ppw, pph, pdn, pcur, pst⟩ := p
  by_cases hy : truthyQ y <;>
    simp [bulletStart, hy, set_xy, set_fill_color, ellipse, draw, set_font,
      set_text_color, get_y]

/-- C2 (amended): for a non-empty highlight, whenever the left-to-right
non-overlapping split of the text around the highlight yields exactly two
parts `t0, t1` — which happens in particular whenever the highlight occurs
at exactly one offset — `bullet` renders three spans: `t0` in normal style
(Helvetica regular 13, gray), the highlight in bold accent (Helvetica bold
13, amber), `t1` in normal style, with `text = t0 ++ highlight ++ t1`
splitting the text around the first occurrence of the highlight
(`t0.length` is an occurrence offset and no smaller offset is; the `cur`
field lists primitives in reverse drawing order, so the suffix span comes
first).  If the highlight occurs at no offset, or the split yields more
than two parts, the call renders exactly like the plain non-highlighted
call; and no error is ever raised (the explicit-error variant returns
`.ok`).  In particular, when overlapping occurrences collapse to a single
non-overlapping one (e.g. `"aa"` in `"aaa"`), the code highlights around
the first occurrence instead of falling back — see the counterexample
`bullet_overlap_highlight`. -/
theorem bullet_highlight_spec (M : Metrics) (p : PDF) (text hl : String)
    (x : ℚ) (y : Option ℚ) (hhl : hl ≠ "") :
    (∀ t0 t1 : List Char, pysplit hl.data text.data = [t0, t1] →
      text.data = t0 ++ hl.data ++ t1 ∧
      occAt hl.data text.data t0.length ∧
      (∀ j, occAt hl.data text.data j → t0.length ≤ j) ∧
      ∃ x1 x2 x3 w1 w2 w3 : ℚ,
        (bullet M p text x y (some hl)).cur =
          Prim.cell x3 (bulletStart p x y).y w3 8 (⟨t1⟩ : String)
              ⟨.helvetica, false, 13⟩ ⟨220, 220, 220⟩ .left ::
          Prim.cell x2 (bulletStart p x y).y w2 8 hl
              ⟨.helvetica, true, 13⟩ ⟨254, 202, 87⟩ .left ::
          Prim.cell x1 (bulletStart p x y).y w1 8 (⟨t0⟩ : String)
              ⟨.helvetica, false, 13⟩ ⟨220, 220, 220⟩ .left ::
          (bulletStart p x y).cur) ∧
    (occCount hl.data text.data = 1 →
      ∃ t0 t1 : List Char, pysplit hl.data text.data = [t0, t1]) ∧
    (occCount hl.data text.data = 0 →
      bullet M p text x y (some hl) = bullet M p text x y none) ∧
    (3 ≤ (pysplit hl.data text.data).length →
      bullet M p text x y (some hl) = bullet M p text x y none) ∧
    bulletE M p text x y (some hl) = .ok (bullet M p text x y (some hl)) := by
  have hdata : hl.data ≠ [] := fun hd => hhl (by cases hl; simp_all)
  have hb : truthyStr (some hl) = true := by simp [truthyStr, hhl]
  refine ⟨?_, ?_, ?_, ?_, ?_⟩
  · intro t0 t1 hps
    have hsf := pysplit_pair hl.data text.data t0 t1 hdata hps
    refine ⟨splitFirst_eq hl.data text.data t0 t1 hsf,
      occAt_of_splitFirst hl.data text.data t0 t1 hsf,
      fun j hj => splitFirst_min hl.data text.data t0 t1 hsf j hj, ?_⟩
    rcases hq : bulletStart p x y with
      ⟨qx, qy, qf, qtc, qfc, qdc, qapb, qpw, qph, qdn, qcur, qst⟩
    have hf := bulletStart_font p x y
    have htc := bulletStart_textColor p x y
    rw [hq] at hf htc
    simp only at hf htc
    subst hf
    subst htc
    simp only [bullet, hq, hb, Option.getD_some, hps, List.length_cons,
      List.length_nil, reduceIte, if_true, List.getD_cons_zero,
      List.getD_cons_succ, cell, set_font, set_text_color, set_y, get_y]
    exact ⟨_, _, _, _, _, _, rfl⟩
  · intro h1
    obtain ⟨t0, t1, hps, -⟩ := pysplit_of_occCount_one hl.data text.data hdata h1
    exact ⟨t0, t1, hps⟩
  · intro h0
    have hps := pysplit_of_occCount_zero hl.data text.data hdata h0
    simp [bullet, hb, hps, truthyStr]
  · intro h3
    have hne : ¬((pysplit hl.data text.data).length = 2) := by omega
    simp [bullet, hb, hne, truthyStr]
  · simp [bulletE, hb, pysplitE, hdata]

/-- A simple concrete canvas state used by concrete instances below. -/
def pCE : PDF :=
  ⟨25, 100, ⟨.helvetica, false, 9⟩, ⟨0, 0, 0⟩, ⟨0, 0, 0⟩, ⟨0, 0, 0⟩, false,
   297, 210, [], [], true⟩

/-- C2 (counterexample to the claim as stated): `"aa"` occurs at two
offsets of `"aaa"` — more than once — yet the rendered output is not the
plain rendering: the left-to-right non-overlapping split yields exactly two
parts, so the code highlights the first occurrence instead of falling
back. -/
theorem bullet_overlap_highlight :
    occCount "aa".data "aaa".data = 2 ∧
    bullet Mpos pCE "aaa" 25 none (some "aa") ≠ bullet Mpos pCE "aaa" 25 none none := by
  constructor
  · decide
  · have hps : pysplit "aa".data "aaa".data = [[], ['a']] := by
      rw [pysplit_eq_of_some "aa".data "aaa".data [] ['a'] (by decide) (by decide),
        pysplit_eq_of_none "aa".data ['a'] (by decide) (by decide)]
    intro h
    have hlen := congrArg (fun q => q.cur.length) h
    simp [bullet, bulletStart, truthyQ, truthyStr, hps, set_fill_color, ellipse, draw,
      set_xy, set_font, set_text_color, get_y, cell, set_y, pCE] at hlen

/-- C2 witness: a concrete call with highlight `"ell"`, whose split of
`"hello"` yields the two parts `['h']` and `['o']`, renders the three
spans around the first (and only) occurrence. -/
theorem bullet_highlight_spec_witness :
    "hello".data = ['h'] ++ "ell".data ++ ['o'] ∧
    occAt "ell".data "hello".data (['h'] : List Char).length ∧
    (∀ j, occAt "ell".data "hello".data j → (['h'] : List Char).length ≤ j) ∧
    ∃ x1 x2 x3 w1 w2 w3 : ℚ,
      (bullet Mpos pCE "hello" 25 none (some "ell")).cur =
        Prim.cell x3 (bulletStart pCE 25 none).y w3 8 (⟨['o']⟩ : String)
            ⟨.helvetica, false, 13⟩ ⟨220, 220, 220⟩ .left ::
        Prim.cell x2 (bulletStart pCE 25 none).y w2 8 "ell"
            ⟨.helvetica, true, 13⟩ ⟨254, 202, 87⟩ .left ::
        Prim.cell x1 (bulletStart pCE 25 none).y w1 8 (⟨['h']⟩ : String)
            ⟨.helvetica, false, 13⟩ ⟨220, 220, 220⟩ .left ::
        (bulletStart pCE 25 none).cur :=
  (bullet_highlight_spec Mpos pCE "hello" "ell" 25 none (by decide)).1 ['h'] ['o']
    (by rw [pysplit_eq_of_some "ell".data "hello".data ['h'] ['o'] (by decide) (by decide),
          pysplit_eq_of_none "ell".data ['o'] (by decide) (by decide)])

/-- The font `tag` renders chip text in (`Helvetica`, regular, 9). -/
def helv9 : Font := ⟨.helvetica, false, 9⟩

/-- The chip rectangle width of a `tag` call entered with font `f`:
measured text width plus the fixed 12-unit padding. -/
def tagW (M : Metrics) (f : Font) (t : String) : ℚ := M.stringWidth f t + 12

/-- The `(x, width)` pairs of the chip rectangles drawn by a left-to-right
tag run starting at `x0` with entry font `f`: each next chip starts at the
previous start plus the previous returned width (rectangle width plus 5),
and every chip after the first is measured in the font `tag` installs
(Helvetica 9). -/
def chipList (M : Metrics) (f : Font) (x0 : ℚ) : List String → List (ℚ × ℚ)
  | [] => []
  | t :: ts => (x0, tagW M f t) :: chipList M helv9 (x0 + (tagW M f t + 5)) ts

/-- The `(x, width)` pairs of the rectangle primitives of a trace. -/
def rectsXW : List Prim → List (ℚ × ℚ)
  | [] => []
  | .rect x _ w _ _ _ _ :: l => (x, w) :: rectsXW l
  | _ :: l => rectsXW l

theorem rectsXW_append (l1 l2 : List Prim) :
    rectsXW (l1 ++ l2) = rectsXW l1 ++ rectsXW l2 := by
  induction l1 with
  | nil => rfl
  | cons a l ih => cases a <;> simp [rectsXW, ih]

/-- Exact effect of one `tag` call: chip rectangle, centered text cell,
chip style installed, and consumed width `tagW + 5` returned. -/
theorem tag_eq (M : Metrics) (p : PDF) (t : String) (x y : ℚ) :
    tag M p t x y =
      (⟨x + effW p.pageW x (tagW M p.font t), y + 2, helv9, ⟨255, 150, 150⟩,
        ⟨80, 40, 40⟩, ⟨255, 107, 107⟩, p.autoPageBreak, p.pageW, p.pageH, p.done,
        Prim.cell x (y + 2) (effW p.pageW x (tagW M p.font t)) 6 t helv9
            ⟨255, 150, 150⟩ .center ::
          Prim.rect x y (tagW M p.font t) 10 .fillDraw ⟨80, 40, 40⟩ ⟨255, 107, 107⟩ ::
          p.cur,
        p.started⟩,
       tagW M p.font t + 5) := by
  obtain ⟨px, py, pf, ptc, pfc, pdc, papb, ppw, pph, pdn, pcur, pst⟩ := p
  simp [tag, tagW, set_fill_color, set_draw_color, rect, draw, set_font,
    set_text_color, set_xy, cell, helv9]

theorem tagRun_rects (M : Metrics) (ts : List String) :
    ∀ (p : PDF) (x0 y : ℚ),
      rectsXW (trace (tagRun M p x0 y ts).1) =
        rectsXW (trace p) ++ chipList M p.font x0 ts := by
  induction ts with
  | nil => intro p x0 y; simp [tagRun, chipList]
  | cons t ts ih =>
    intro p x0 y
    have hstep : tagRun M p x0 y (t :: ts) =
        tagRun M (tag M p t x0 y).1 (x0 + (tag M p t x0 y).2) y ts := by
      simp [tagRun]
    rw [hstep, ih, tag_eq]
    simp [trace, chipList, rectsXW, rectsXW_append, List.append_assoc]

theorem chipList_le (M : Metrics) (h0 : ∀ f t, 0 ≤ M.stringWidth f t)
    (ts : List String) :
    ∀ (f : Font) (x0 : ℚ) (e : ℚ × ℚ), e ∈ chipList M f x0 ts → x0 ≤ e.1 := by
  induction ts with
  | nil => intro f x0 e he; simp [chipList] at he
  | cons t ts ih =>
    intro f x0 e he
    simp only [chipList, List.mem_cons] at he
    rcases he with he | he
    · subst he; exact le_refl x0
    · have h1 := ih helv9 (x0 + (tagW M f t + 5)) e he
      have hw := h0 f t
      simp only [tagW] at h1
      linarith

theorem chipList_pairwise (M : Metrics) (h0 : ∀ f t, 0 ≤ M.stringWidth f t)
    (ts : List String) :
    ∀ (f : Font) (x0 : ℚ),
      List.Pairwise (fun a b : ℚ × ℚ => a.1 + a.2 < b.1) (chipList M f x0 ts) := by
  induction ts with
  | nil => intro f x0; simp [chipList]
  | cons t ts ih =>
    intro f x0
    simp only [chipList]
    refine List.Pairwise.cons ?_ (ih helv9 (x0 + (tagW M f t + 5)))
    intro e he
    have h1 := chipList_le M h0 ts helv9 (x0 + (tagW M f t + 5)) e he
    simp only
    linarith

theorem chipList_chain_gap (M : Metrics) (ts : List String) :
    ∀ (f : Font) (x0 : ℚ),
      List.Chain' (fun a b : ℚ × ℚ => b.1 = a.1 + a.2 + 5) (chipList M f x0 ts) := by
  induction ts with
  | nil => intro f x0; simp [chipList]
  | cons t ts ih =>
    intro f x0
    cases ts with
    | nil => simp [chipList]
    | cons t2 ts2 =>
      simp only [chipList, List.chain'_cons]
      refine ⟨by ring, ?_⟩
      have := ih helv9 (x0 + (tagW M f t + 5))
      simpa [chipList] using this

/-- C1: the width a `tag` call returns is at least the rendered text width
(the chip text is rendered in Helvetica 9) plus the fixed 12-unit padding,
provided the text measures at least as wide under the entry font used for
sizing as under the rendering font (the script only ever enters `tag` with
regular Helvetica at size 9 or larger); and a left-to-right run of chips,
where each next x-offset is the previous offset plus the previous returned
width, draws exactly the chip rectangles of `chipList`, which are pairwise
non-overlapping horizontally. -/
theorem tag_width_and_no_overlap (M : Metrics)
    (h0 : ∀ (f : Font) (t : String), 0 ≤ M.stringWidth f t)
    (p : PDF) (text : String) (x y : ℚ)
    (hfont : M.stringWidth helv9 text ≤ M.stringWidth p.font text) :
    M.stringWidth helv9 text + 12 ≤ (tag M p text x y).2 ∧
    ∀ (q : PDF) (x0 y0 : ℚ) (ts : List String),
      rectsXW (trace (tagRun M q x0 y0 ts).1) =
        rectsXW (trace q) ++ chipList M q.font x0 ts ∧
      List.Pairwise (fun a b : ℚ × ℚ => a.1 + a.2 < b.1) (chipList M q.font x0 ts) := by
  constructor
  · rw [tag_eq]
    simp only [tagW]
    linarith
  · intro q x0 y0 ts
    exact ⟨tagRun_rects M ts q x0 y0, chipList_pairwise M h0 ts q.font x0⟩

/-- C1 witness at the concrete metrics `Mpos` and the first chip of the
title slide. -/
theorem tag_width_and_no_overlap_witness :
    Mpos.stringWidth helv9 "DEX" + 12 ≤ (tag Mpos pCE "DEX" 60 130).2 ∧
    ∀ (q : PDF) (x0 y0 : ℚ) (ts : List String),
      rectsXW (trace (tagRun Mpos q x0 y0 ts).1) =
        rectsXW (trace q) ++ chipList Mpos q.font x0 ts ∧
      List.Pairwise (fun a b : ℚ × ℚ => a.1 + a.2 < b.1)
        (chipList Mpos q.font x0 ts) :=
  tag_width_and_no_overlap Mpos (fun _ t => Nat.cast_nonneg t.length)
    pCE "DEX" 60 130 (le_of_eq rfl)

/-- Size-proportional concrete metrics, as the library's
`get_string_width` behaves: one size unit per character. -/
def Mprop : Metrics := ⟨fun f t => (t.length : ℚ) * f.size, fun _ _ _ => 1⟩

/-- The canvas state at the first chip call of the title slide: the font
current at entry is regular Helvetica at size 18, installed by
`subtitle_text` just before the tag run. -/
def p18 : PDF :=
  ⟨20, 100, ⟨.helvetica, false, 18⟩, ⟨200, 200, 200⟩, ⟨26, 26, 46⟩, ⟨0, 0, 0⟩,
   false, 297, 210, [], [], true⟩

/-- C10 (counterexample to the claim as stated): `tag` sizes the chip with
the font current at entry, not the rendering font.  At the title slide's
first chip call (entry font Helvetica 18, text `"Dynamic Fee"`), under
size-proportional metrics the single rectangle drawn is 210 units wide
(11 characters × 18 + 12), while the rendered Helvetica-9 text width plus
12 is only 111 — so the drawn chip rectangle does not have width exactly
the rendered text width plus 12. -/
theorem tag_measures_entry_font :
    rectsXW (trace (tag Mprop p18 "Dynamic Fee" 60 130).1) = [(60, 210)] ∧
    Mprop.stringWidth helv9 "Dynamic Fee" + 12 = 111 ∧
    (210 : ℚ) ≠ 111 := by
  have h11n : "Dynamic Fee".length = 11 := rfl
  have h11 : ("Dynamic Fee".length : ℚ) = 11 := by rw [h11n]; norm_num
  refine ⟨?_, ?_, by norm_num⟩
  · rw [tag_eq]
    simp [trace, rectsXW, p18, Mprop, tagW, h11]
    norm_num
  · simp [Mprop, helv9, h11]
    norm_num

/-- C10 (amended): the chip rectangle drawn by `tag` has width exactly the
text width measured with the font current at entry plus 12, the returned
consumed width is exactly the rectangle width plus 5, and consecutive
chips of a run are separated by exactly a 5-unit horizontal gap.  `tag`
installs Helvetica 9 (the rendering font) before returning, so for every
chip after the first in a run the entry measurement is the rendered-text
measurement and the rectangle width is exactly the rendered text width
plus 12; at a run's first chip, entered with a larger font, the rectangle
is wider (see `tag_measures_entry_font`). -/
theorem tag_exact_widths (M : Metrics)
    (h0 : ∀ (f : Font) (t : String), 0 ≤ M.stringWidth f t)
    (p : PDF) (text : String) (x y : ℚ) :
    (tag M p text x y).1.cur =
      Prim.cell x (y + 2) (M.stringWidth p.font text + 12) 6 text helv9
          ⟨255, 150, 150⟩ .center ::
        Prim.rect x y (M.stringWidth p.font text + 12) 10 .fillDraw ⟨80, 40, 40⟩
          ⟨255, 107, 107⟩ :: p.cur ∧
    (tag M p text x y).2 = (M.stringWidth p.font text + 12) + 5 ∧
    (tag M p text x y).1.font = helv9 ∧
    ∀ (f : Font) (x0 : ℚ) (ts : List String),
      List.Chain' (fun a b : ℚ × ℚ => b.1 = a.1 + a.2 + 5) (chipList M f x0 ts) := by
  have hne : M.stringWidth p.font text + 12 ≠ 0 := by
    have := h0 p.font text
    linarith
  refine ⟨?_, ?_, ?_, fun f x0 ts => chipList_chain_gap M ts f x0⟩
  · rw [tag_eq]
    simp only [effW, tagW]
    rw [if_neg hne]
  · rw [tag_eq]
    simp only [tagW]
  · rw [tag_eq]

/-- C10 witness at the concrete metrics `Mpos`. -/
theorem tag_exact_widths_witness :
    (tag Mpos pCE "Foundry" 40 120).1.cur =
      Prim.cell 40 (120 + 2) (Mpos.stringWidth pCE.font "Foundry" + 12) 6 "Foundry"
          helv9 ⟨255, 150, 150⟩ .center ::
        Prim.rect 40 120 (Mpos.stringWidth pCE.font "Foundry" + 12) 10 .fillDraw
          ⟨80, 40, 40⟩ ⟨255, 107, 107⟩ :: pCE.cur ∧
    (tag Mpos pCE "Foundry" 40 120).2 = (Mpos.stringWidth pCE.font "Foundry" + 12) + 5 ∧
    (tag Mpos pCE "Foundry" 40 120).1.font = helv9 ∧
    ∀ (f : Font) (x0 : ℚ) (ts : List String),
      List.Chain' (fun a b : ℚ × ℚ => b.1 = a.1 + a.2 + 5) (chipList Mpos f x0 ts) :=
  tag_exact_widths Mpos (fun _ t => Nat.cast_nonneg t.length) pCE "Foundry" 40 120
